import Mathlib

/-!
Verification of the NutriKazBot funnel-messaging engine.

The development shallowly embeds the scheduling and dispatch core of the
repository: the stage resolver (`app/handlers/common.py`), the lead-magnet
funnel orchestrator (`app/handlers/lead_magnet.py`), contact registration
(`app/database/crud_user.py`) and the dispatcher sweep plus immediate
broadcast path (`app/database/crud_admin.py`).  Wall-clock datetimes are
embedded as minute counts, delivery outcomes as an oracle per recipient,
and database tables as lists of rows.
-/

namespace NutriKaz

/- Instants are counted in minutes since 2025-10-01 00:00 Asia/Almaty.
All datetime literals appearing in the source fall in October–November
2025, so the lexicographic datetime order of the source coincides with
the order of this minute count. -/

def minutesPerDay : Nat := 1440

/-- 2025-10-29 00:00 Asia/Almaty. -/
def oct29 : Nat := 28 * 1440

/-- 2025-11-07 00:00 Asia/Almaty (October has 31 days). -/
def nov7 : Nat := 37 * 1440

/-- 2025-11-13 00:00 Asia/Almaty. -/
def nov13 : Nat := 43 * 1440

/-- 2025-11-14 00:00 Asia/Almaty. -/
def nov14 : Nat := 44 * 1440

/-- 2025-11-18 00:00 Asia/Almaty. -/
def nov18 : Nat := 48 * 1440

/-- `get_current_stage` from `app/handlers/common.py` lines 37–56: three
chained half-open datetime window tests; falling through every branch
returns Python `None`, embedded as `none`. -/
def get_current_stage (now : Nat) : Option String :=
  if oct29 ≤ now ∧ now < nov7 then some "stage1"
  else if nov7 ≤ now ∧ now < nov13 then some "stage2"
  else if nov14 ≤ now ∧ now < nov18 then some "stage3"
  else none

/-- The three stage windows of `get_current_stage`, as
(stage, start, end) with the half-open interval [start, end). -/
def stageWindows : List (String × Nat × Nat) :=
  [("stage1", oct29, nov7), ("stage2", nov7, nov13), ("stage3", nov14, nov18)]

/-- Membership of an instant in the half-open interval of a window. -/
def inWindow (w : String × Nat × Nat) (t : Nat) : Prop :=
  w.2.1 ≤ t ∧ t < w.2.2

instance (w : String × Nat × Nat) (t : Nat) : Decidable (inWindow w t) :=
  inferInstanceAs (Decidable (_ ∧ _))

theorem get_current_stage_in1 (t : Nat) (h1 : oct29 ≤ t) (h2 : t < nov7) :
    get_current_stage t = some "stage1" := by
  unfold get_current_stage
  rw [if_pos ⟨h1, h2⟩]

theorem get_current_stage_in2 (t : Nat) (h1 : nov7 ≤ t) (h2 : t < nov13) :
    get_current_stage t = some "stage2" := by
  have hn : ¬ (oct29 ≤ t ∧ t < nov7) := by
    rintro ⟨-, hd⟩
    omega
  unfold get_current_stage
  rw [if_neg hn, if_pos ⟨h1, h2⟩]

theorem get_current_stage_in3 (t : Nat) (h1 : nov14 ≤ t) (h2 : t < nov18) :
    get_current_stage t = some "stage3" := by
  have hord1 : nov7 ≤ nov14 := by decide
  have hord2 : nov13 ≤ nov14 := by decide
  have hn1 : ¬ (oct29 ≤ t ∧ t < nov7) := by
    rintro ⟨-, hd⟩
    omega
  have hn2 : ¬ (nov7 ≤ t ∧ t < nov13) := by
    rintro ⟨-, hd⟩
    omega
  unfold get_current_stage
  rw [if_neg hn1, if_neg hn2, if_pos ⟨h1, h2⟩]

theorem get_current_stage_out (t : Nat)
    (h1 : ¬ (oct29 ≤ t ∧ t < nov7)) (h2 : ¬ (nov7 ≤ t ∧ t < nov13))
    (h3 : ¬ (nov14 ≤ t ∧ t < nov18)) :
    get_current_stage t = none := by
  unfold get_current_stage
  rw [if_neg h1, if_neg h2, if_neg h3]

/-- C6: the stage resolver is a pure function of the instant (it is a plain
function returning at most one stage), it is constant on each half-open
stage window and returns a stage there, and it returns the explicit empty
result `none` for an instant contained in no window. -/
theorem stage_resolver_windows :
    (∀ w ∈ stageWindows, ∀ t₁ t₂ : Nat, inWindow w t₁ → inWindow w t₂ →
      get_current_stage t₁ = get_current_stage t₂ ∧ (get_current_stage t₁).isSome = true) ∧
    (∀ t : Nat, (∀ w ∈ stageWindows, ¬ inWindow w t) → get_current_stage t = none) := by
  constructor
  · intro w hw t₁ t₂ h₁ h₂
    simp only [stageWindows, List.mem_cons, List.not_mem_nil, or_false] at hw
    rcases hw with hw | hw | hw <;> subst hw <;>
      rcases h₁ with ⟨ha₁, hb₁⟩ <;> rcases h₂ with ⟨ha₂, hb₂⟩
    · rw [get_current_stage_in1 t₁ ha₁ hb₁, get_current_stage_in1 t₂ ha₂ hb₂]
      exact ⟨rfl, rfl⟩
    · rw [get_current_stage_in2 t₁ ha₁ hb₁, get_current_stage_in2 t₂ ha₂ hb₂]
      exact ⟨rfl, rfl⟩
    · rw [get_current_stage_in3 t₁ ha₁ hb₁, get_current_stage_in3 t₂ ha₂ hb₂]
      exact ⟨rfl, rfl⟩
  · intro t h
    exact get_current_stage_out t
      (h ("stage1", oct29, nov7) (by simp [stageWindows]))
      (h ("stage2", nov7, nov13) (by simp [stageWindows]))
      (h ("stage3", nov14, nov18) (by simp [stageWindows]))

/-- Witness for C6 at concrete instants: two instants inside the stage2
window resolve identically, and an instant before every window resolves
to `none`. -/
theorem stage_resolver_windows_witness :
    get_current_stage nov7 = get_current_stage (nov7 + 5) ∧ get_current_stage 0 = none := by
  refine ⟨(stage_resolver_windows.1 ("stage2", nov7, nov13) (by simp [stageWindows])
    nov7 (nov7 + 5) (by constructor <;> decide) (by constructor <;> decide)).1, ?_⟩
  exact stage_resolver_windows.2 0 (by intro w hw; fin_cases hw <;> decide)

/-- Stored payload of a `message_schedule` row.  `add_message_schedule` in
`app/database/crud_admin.py` stores either the plain message text or a JSON
object bundling text, file_id and file_type; the embedding keeps the tagged
form instead of the JSON string encoding. -/
inductive StoredPayload
  | plain (text : String)
  | withFile (text file_id file_type : String)
deriving DecidableEq

/-- A row of the `message_schedule` table (`MessageSchedule` in
`app/database/models.py`). -/
structure MessageScheduleRow where
  id : Nat
  user_id : Nat
  message_text : StoredPayload
  send_time : Nat
  sent : Bool
deriving DecidableEq

/-- A row of the `user` table (`User` in `app/database/models.py`); `id` is
the primary key, `user_id` the Telegram id (non-nullable and unique). -/
structure UserRow where
  id : Nat
  user_id : Nat
  username : Option String
  first_name : Option String
  last_name : Option String
  phone : Option String
  lead_source_id : Option Nat
deriving DecidableEq

/-- Python truthiness of an optional string: `None` and `""` are falsy. -/
def truthyStr : Option String → Bool
  | none => false
  | some s => s != ""

/-- The `message_schedule` table together with the SQLAlchemy session's
pending (added but not yet committed) rows. -/
structure MsgDB where
  committed : List MessageScheduleRow
  pending : List MessageScheduleRow
deriving DecidableEq

def MsgDB.add (db : MsgDB) (r : MessageScheduleRow) : MsgDB :=
  { db with pending := db.pending ++ [r] }

def MsgDB.commit (db : MsgDB) : MsgDB :=
  { committed := db.committed ++ db.pending, pending := [] }

def MsgDB.rollback (db : MsgDB) : MsgDB :=
  { db with pending := [] }

/-- Autoincrement id for the next schedule row. -/
def MsgDB.nextId (db : MsgDB) : Nat :=
  db.committed.length + db.pending.length

/-- `add_message_schedule` from `app/database/crud_admin.py` lines 132–161:
builds the payload (with file data only when both `file_id` and `file_type`
are truthy), adds the row with `sent = False`, and commits immediately. -/
def add_message_schedule (db : MsgDB) (user_id : Nat) (message_text : String)
    (scheduled_at : Nat) (file_id : Option String) (file_type : Option String) : MsgDB :=
  let payload :=
    if truthyStr file_id && truthyStr file_type then
      StoredPayload.withFile message_text (file_id.getD "") (file_type.getD "")
    else
      StoredPayload.plain message_text
  (db.add { id := db.nextId, user_id := user_id, message_text := payload,
            send_time := scheduled_at, sent := false }).commit

/-- `LEAD_MAGNET_TEXTS` from `app/handlers/lead_magnet.py`; the long message
bodies are abbreviated to stable identifiers, since the scheduling logic
never inspects their content. -/
def LEAD_MAGNET_TEXTS : List (String × String) :=
  [("welcome", "LM_WELCOME"), ("reminder", "LM_REMINDER"),
   ("feedback_thanks", "LM_FEEDBACK_THANKS")]

/-- `LEAD_MAGNET_TEXTS.get(text_key, default)` of the source. -/
def lmText (key : String) : String :=
  match LEAD_MAGNET_TEXTS.lookup key with
  | some t => t
  | none => "[MISSING " ++ key ++ "]"

/-- The reminder plan built by `schedule_lead_magnet_messages`: the lesson
message one minute after enrollment and the reminder two days after. -/
def lmReminders (now : Nat) : List (Nat × String) :=
  [(now + 1, "welcome"), (now + 2 * minutesPerDay, "reminder")]

/-- The insert loop of `schedule_lead_magnet_messages`
(`app/handlers/lead_magnet.py` lines 99–107): walk the reminder plan and
insert each entry whose due time is strictly in the future.  `failAt i`
injects a raised exception (e.g. a store error) on the i-th reminder before
that row is persisted; the exception is returned as `Except.error` carrying
the session state at the failure point. -/
def lmInsertLoop (failAt : Nat → Bool) (now uid : Nat) :
    List (Nat × String) → Nat → MsgDB → Except MsgDB MsgDB
  | [], _, db => Except.ok db
  | (t, key) :: rest, idx, db =>
    if now < t then
      if failAt idx then Except.error db
      else lmInsertLoop failAt now uid rest (idx + 1)
        (add_message_schedule db uid (lmText key) t none none)
    else lmInsertLoop failAt now uid rest (idx + 1) db

/-- `schedule_lead_magnet_messages` from `app/handlers/lead_magnet.py`
lines 88–113: inserts the due reminders (each insert committing on its own
inside `add_message_schedule`), commits, and catches any exception with a
rollback and a log line.  The returned Bool tells whether an error escaped
to the caller; the `except` clause swallows it, so it is `false` on both
paths. -/
def schedule_lead_magnet_messages (failAt : Nat → Bool) (db : MsgDB)
    (now uid : Nat) : MsgDB × Bool :=
  match lmInsertLoop failAt now uid (lmReminders now) 0 db with
  | Except.ok db1 => (db1.commit, false)
  | Except.error db1 => (db1.rollback, false)

/-- C8 counterexample: enrolling at T = 0 creates entries due at minute 1
(T plus one minute) and minute 2880 (T plus two days); no entry is due at
T itself, contrary to the claimed offset +0. -/
theorem lead_magnet_offset_cx :
    ((schedule_lead_magnet_messages (fun _ => false) ⟨[], []⟩ 0 7).1.committed.map
      (fun r => r.send_time)) = [1, 2880] ∧
    ¬ (0 ∈ ((schedule_lead_magnet_messages (fun _ => false) ⟨[], []⟩ 0 7).1.committed.map
      (fun r => r.send_time))) := by
  decide

/-- C8 (amended): enrollment at time T with a clean session creates exactly
two PersonalScheduleEntry rows, due at T plus one minute and T plus two
days, unsent, addressed to the enrolled user; the guard skipping entries
not strictly in the future never fires for these two offsets. -/
theorem lead_magnet_schedule_times (db : MsgDB) (now uid : Nat)
    (hp : db.pending = []) :
    (schedule_lead_magnet_messages (fun _ => false) db now uid).1.committed =
      db.committed ++
        [{ id := db.committed.length, user_id := uid,
           message_text := StoredPayload.plain (lmText "welcome"),
           send_time := now + 1, sent := false },
         { id := db.committed.length + 1, user_id := uid,
           message_text := StoredPayload.plain (lmText "reminder"),
           send_time := now + 2 * minutesPerDay, sent := false }] := by
  have h1 : now < now + 1 := by omega
  have hm : 0 < minutesPerDay := by decide
  have h2 : now < now + 2 * minutesPerDay := by omega
  simp [schedule_lead_magnet_messages, lmReminders, lmInsertLoop, if_pos h1, if_pos h2,
    add_message_schedule, MsgDB.add, MsgDB.commit, MsgDB.nextId, MsgDB.rollback,
    truthyStr, hp, hm]

/-- Witness for C8's amended theorem at a concrete enrollment. -/
theorem lead_magnet_schedule_times_witness :
    (schedule_lead_magnet_messages (fun _ => false) ⟨[], []⟩ 100 7).1.committed =
      [{ id := 0, user_id := 7, message_text := StoredPayload.plain (lmText "welcome"),
         send_time := 101, sent := false },
       { id := 1, user_id := 7, message_text := StoredPayload.plain (lmText "reminder"),
         send_time := 100 + 2 * minutesPerDay, sent := false }] := by
  have h := lead_magnet_schedule_times ⟨[], []⟩ 100 7 rfl
  simpa using h

/-- C9 counterexample: if the insert of the second reminder raises, the
first reminder stays persisted (one committed row) and no error escapes to
the caller — enrollment is not atomic and the failure is swallowed. -/
theorem lead_magnet_partial_commit_cx :
    (schedule_lead_magnet_messages (fun i => i == 1) ⟨[], []⟩ 0 7).1.committed.length = 1 ∧
    (schedule_lead_magnet_messages (fun i => i == 1) ⟨[], []⟩ 0 7).2 = false := by
  decide

/-- C9 (amended): each schedule insert commits individually, so a failure
while creating a later entry leaves the earlier entries persisted; the
exception is logged and swallowed, so the function never signals failure to
its caller (the escaped-error flag is `false` for every failure pattern). -/
theorem lead_magnet_failure_swallowed (failAt : Nat → Bool) (db : MsgDB)
    (now uid : Nat) (hp : db.pending = [])
    (h0 : failAt 0 = false) (h1 : failAt 1 = true) :
    (schedule_lead_magnet_messages failAt db now uid).2 = false ∧
    (schedule_lead_magnet_messages failAt db now uid).1.committed =
      db.committed ++
        [{ id := db.committed.length, user_id := uid,
           message_text := StoredPayload.plain (lmText "welcome"),
           send_time := now + 1, sent := false }] := by
  have ha : now < now + 1 := by omega
  have hm : 0 < minutesPerDay := by decide
  have hb : now < now + 2 * minutesPerDay := by omega
  constructor
  · rcases hres : lmInsertLoop failAt now uid (lmReminders now) 0 db with db1 | db1 <;>
      simp [schedule_lead_magnet_messages, hres]
  · simp [schedule_lead_magnet_messages, lmReminders, lmInsertLoop, if_pos ha, if_pos hb,
      h0, h1, add_message_schedule, MsgDB.add, MsgDB.commit, MsgDB.nextId, MsgDB.rollback,
      truthyStr, hp, hm]

/-- Witness for C9's amended theorem at a concrete failing enrollment. -/
theorem lead_magnet_failure_swallowed_witness :
    (schedule_lead_magnet_messages (fun i => i == 1) ⟨[], []⟩ 5 7).2 = false ∧
    (schedule_lead_magnet_messages (fun i => i == 1) ⟨[], []⟩ 5 7).1.committed =
      [{ id := 0, user_id := 7, message_text := StoredPayload.plain (lmText "welcome"),
         send_time := 6, sent := false }] := by
  have h := lead_magnet_failure_swallowed (fun i => i == 1) ⟨[], []⟩ 5 7 rfl rfl rfl
  simpa using h

/-- The fresh `User` row that `add_user` builds from its arguments. -/
def newUserRow (rowid uid : Nat) (un fn ln ph : Option String)
    (ls : Option Nat) : UserRow :=
  { id := rowid, user_id := uid, username := un, first_name := fn,
    last_name := ln, phone := ph, lead_source_id := ls }

/-- `add_user` from `app/database/crud_user.py` lines 38-71: look the user
up by Telegram id; if present return the existing row untouched, otherwise
insert a fresh row built from the arguments (the autoincrement primary key
is modelled as `length + 1`). -/
def add_user (users : List UserRow) (user_id : Nat)
    (username first_name last_name phone : Option String)
    (lead_source_id : Option Nat) : List UserRow × UserRow :=
  match users.find? (fun u => u.user_id == user_id) with
  | some u => (users, u)
  | none =>
    let nu := newUserRow (users.length + 1) user_id username first_name last_name
      phone lead_source_id
    (users ++ [nu], nu)

theorem find?_append_of_none {A : Type} (p : A -> Bool) (l1 l2 : List A)
    (h : l1.find? p = none) : (l1 ++ l2).find? p = l2.find? p := by
  induction l1 with
  | nil => simp
  | cons a l ih =>
    rw [List.cons_append]
    cases hpa : p a
    · rw [List.find?_cons_of_neg _ (by simp [hpa])] at h ⊢
      exact ih h
    · rw [List.find?_cons_of_pos _ hpa] at h
      cases h

/-- C10: contact registration is idempotent — when a row with the given
Telegram id exists, `add_user` returns it and leaves the table unchanged
(no field overwritten, no second row inserted), and calling `add_user`
twice with the same arguments equals calling it once. -/
theorem add_user_idempotent (users : List UserRow) (uid : Nat)
    (un fn ln ph : Option String) (ls : Option Nat) :
    (∀ u, users.find? (fun v => v.user_id == uid) = some u →
      add_user users uid un fn ln ph ls = (users, u)) ∧
    (add_user (add_user users uid un fn ln ph ls).1 uid un fn ln ph ls =
      add_user users uid un fn ln ph ls) := by
  constructor
  · intro u h
    unfold add_user
    rw [h]
  · cases h : users.find? (fun v => v.user_id == uid) with
    | some u =>
      simp [add_user, h]
    | none =>
      have hfind :
          ((users ++ [newUserRow (users.length + 1) uid un fn ln ph ls]).find?
            (fun v => v.user_id == uid)) =
          some (newUserRow (users.length + 1) uid un fn ln ph ls) := by
        rw [find?_append_of_none _ _ _ h]
        simp [List.find?, newUserRow]
      simp only [add_user, h]
      rw [hfind]

/-- A concrete stored contact used by C10's witness. -/
def wUserA : UserRow :=
  { id := 1, user_id := 101, username := some "a", first_name := none,
    last_name := none, phone := none, lead_source_id := some 3 }

/-- Witness for C10 at a concrete table: re-registering an existing contact
returns the stored row unchanged, and registering a fresh id twice equals
registering it once. -/
theorem add_user_idempotent_witness :
    add_user [wUserA] 101 (some "b") none none none none = ([wUserA], wUserA) ∧
    add_user (add_user [] 101 (some "b") none none none none).1 101
      (some "b") none none none none =
      add_user [] 101 (some "b") none none none none := by
  constructor
  · exact (add_user_idempotent [wUserA] 101 (some "b") none none none none).1 wUserA rfl
  · exact (add_user_idempotent [] 101 (some "b") none none none none).2

/-- A row of the `lead_source` table (`LeadSource` in
`app/database/models.py`). -/
structure LeadSourceRow where
  id : Nat
  name : String
  description : Option String
deriving DecidableEq

/-- A row of the `broadcast` table (`Broadcast` in
`app/database/models.py`). -/
structure BroadcastRow where
  id : Nat
  title : String
  content : String
  file_id : Option String
  file_type : Option String
  scheduled_at : Option Nat
  is_sent : Bool
  status : Option String
  sent_count : Nat
  target_lead_id : Option Nat
  updated : Nat
deriving DecidableEq

/-- The relational store visible to the dispatcher and the admin flows. -/
structure Store where
  leadSources : List LeadSourceRow
  users : List UserRow
  schedules : List MessageScheduleRow
  broadcasts : List BroadcastRow
deriving DecidableEq

/-- Outcome of one outbound send call, classified the way the source
classifies caught exceptions: success, an exception whose message contains
"blocked" (recipient unreachable), or any other exception. -/
inductive DeliveryResult
  | ok
  | blocked
  | failed
deriving DecidableEq

/-- Observable actions of the dispatcher in execution order: delivery
attempts and database writes/commits. -/
inductive Ev
  | attemptPersonal (schedule_id tg : Nat) (r : DeliveryResult)
  | markPersonalSent (schedule_id : Nat)
  | setBroadcastSending (broadcast_id : Nat)
  | commit
  | attemptBroadcast (tg : Nat) (r : DeliveryResult)
  | finalizeBroadcast (broadcast_id total : Nat)
deriving DecidableEq

/-- A result row of the dispatcher's personal query: `message_schedule`
JOIN `"user"` selecting ms.id, ms.message_text and u.user_id as tg_id. -/
structure PersonalRow where
  id : Nat
  message_text : StoredPayload
  tg_id : Nat
deriving DecidableEq

/-- The personal due query of `send_scheduled_broadcasts`
(`app/database/crud_admin.py` lines 443–452): message_schedule JOIN "user"
ON u.id = ms.user_id WHERE send_time <= :now AND sent = false.  There is
no ORDER BY; table order is kept, and the SQL join semantics (one output
row per matching user row) is preserved. -/
def duePersonalRows (now : Nat) (users : List UserRow)
    (schedules : List MessageScheduleRow) : List PersonalRow :=
  schedules.flatMap (fun ms =>
    if ms.send_time ≤ now ∧ ms.sent = false then
      (users.filter (fun u => u.id == ms.user_id)).map
        (fun u => { id := ms.id, message_text := ms.message_text, tg_id := u.user_id })
    else [])

/-- UPDATE message_schedule SET sent = true WHERE id = :id. -/
def markSent (mid : Nat) (schedules : List MessageScheduleRow) :
    List MessageScheduleRow :=
  schedules.map (fun r => if r.id = mid then { r with sent := true } else r)

/-- The personal sweep loop (lines 454–472): for each fetched row attempt
delivery (every exception is caught and only logged), then execute the
sent-flag update regardless of the attempt's outcome. -/
def personalSweep (deliver : Nat → DeliveryResult) (rows : List PersonalRow)
    (schedules : List MessageScheduleRow) : List MessageScheduleRow × List Ev :=
  rows.foldl (fun acc row =>
    (markSent row.id acc.1,
     acc.2 ++ [Ev.attemptPersonal row.id row.tg_id (deliver row.tg_id),
               Ev.markPersonalSent row.id]))
    (schedules, [])

/-- The broadcast due predicate of the dispatcher query (lines 477–484):
scheduled_at <= :now (a NULL scheduled_at is never due), status NULL or
'pending', and is_sent = false. -/
def isDueBroadcast (now : Nat) (b : BroadcastRow) : Bool :=
  (match b.scheduled_at with
   | some t => decide (t ≤ now)
   | none => false) &&
  (b.status == none || b.status == some "pending") &&
  (b.is_sent == false)

/-- SELECT ... FROM broadcast WHERE ... LIMIT 1 — there is no ORDER BY, so
the first matching row in table order is taken. -/
def dueBroadcast (now : Nat) (broadcasts : List BroadcastRow) :
    Option BroadcastRow :=
  broadcasts.find? (isDueBroadcast now)

/-- UPDATE broadcast SET status = 'sending' WHERE id = :id. -/
def setSending (bid : Nat) (broadcasts : List BroadcastRow) :
    List BroadcastRow :=
  broadcasts.map (fun b =>
    if b.id = bid then { b with status := some "sending" } else b)

/-- UPDATE broadcast SET is_sent = true, status = 'sent',
sent_count = :total, updated = :now WHERE id = :id — the single final
update of the dispatcher's broadcast sweep. -/
def finalizeRow (bid total now : Nat) (broadcasts : List BroadcastRow) :
    List BroadcastRow :=
  broadcasts.map (fun b =>
    if b.id = bid then
      { b with is_sent := true, status := some "sent",
               sent_count := total, updated := now }
    else b)

/-- The broadcast fan-out loop of the dispatcher (lines 500–519): iterate
every selected user, attempt the send, and count successes; a "blocked"
error is swallowed silently, any other error is only logged — neither is
counted.  The outcome of a send to one recipient is the oracle value. -/
def broadcastFanout (deliver : Nat → DeliveryResult) (recips : List Nat) :
    List Ev × Nat :=
  recips.foldl (fun acc tg =>
    (acc.1 ++ [Ev.attemptBroadcast tg (deliver tg)],
     acc.2 + (if deliver tg = DeliveryResult.ok then 1 else 0)))
    ([], 0)

/-- `send_scheduled_broadcasts` from `app/database/crud_admin.py` lines
435–532 — one dispatcher tick over the store at time `now` with delivery
oracle `deliver`: sweep all due personal entries first, then at most one
due broadcast.  The broadcast recipient query (line 498) selects every
user and never reads the job's target_lead_id.  The final commit happens
only when some work was found. -/
def send_scheduled_broadcasts (deliver : Nat → DeliveryResult) (now : Nat)
    (s : Store) : Store × List Ev :=
  let rows := duePersonalRows now s.users s.schedules
  let p := personalSweep deliver rows s.schedules
  let s1 : Store := { s with schedules := p.1 }
  match dueBroadcast now s.broadcasts with
  | none =>
    if rows.isEmpty then (s1, p.2) else (s1, p.2 ++ [Ev.commit])
  | some b =>
    let s2 : Store := { s1 with broadcasts := setSending b.id s1.broadcasts }
    let fan := broadcastFanout deliver (s2.users.map (fun u => u.user_id))
    let s3 : Store := { s2 with broadcasts := finalizeRow b.id fan.2 now s2.broadcasts }
    (s3, p.2 ++ [Ev.setBroadcastSending b.id, Ev.commit] ++ fan.1
         ++ [Ev.finalizeBroadcast b.id fan.2, Ev.commit])

/-- C7: a dispatcher tick that finds no due personal entry and no due
broadcast changes nothing and performs no action; running it twice equals
running it once (idempotent no-op). -/
theorem dispatcher_idempotent_noop (deliver : Nat → DeliveryResult) (now : Nat)
    (s : Store) (h1 : duePersonalRows now s.users s.schedules = [])
    (h2 : dueBroadcast now s.broadcasts = none) :
    send_scheduled_broadcasts deliver now s = (s, []) ∧
    send_scheduled_broadcasts deliver now
      (send_scheduled_broadcasts deliver now s).1 = (s, []) := by
  have hone : send_scheduled_broadcasts deliver now s = (s, []) := by
    simp [send_scheduled_broadcasts, h1, h2, personalSweep]
  refine ⟨hone, ?_⟩
  rw [hone]
  exact hone

/-- A schedule row already delivered, used by no-op witnesses. -/
def wSchedDone : MessageScheduleRow :=
  { id := 1, user_id := 1, message_text := StoredPayload.plain "t",
    send_time := 0, sent := true }

/-- A broadcast row already sent, used by no-op witnesses. -/
def wBroadcastDone : BroadcastRow :=
  { id := 1, title := "b", content := "c", file_id := none,
    file_type := some "text", scheduled_at := some 0, is_sent := true,
    status := some "sent", sent_count := 2, target_lead_id := none,
    updated := 0 }

/-- A store whose only rows are completed work: nothing is due. -/
def wStoreDone : Store :=
  { leadSources := [], users := [wUserA], schedules := [wSchedDone],
    broadcasts := [wBroadcastDone] }

/-- Witness for C7 on a store holding only completed work. -/
theorem dispatcher_idempotent_noop_witness :
    send_scheduled_broadcasts (fun _ => DeliveryResult.ok) 5 wStoreDone =
      (wStoreDone, []) ∧
    send_scheduled_broadcasts (fun _ => DeliveryResult.ok) 5
      (send_scheduled_broadcasts (fun _ => DeliveryResult.ok) 5 wStoreDone).1 =
      (wStoreDone, []) :=
  dispatcher_idempotent_noop (fun _ => DeliveryResult.ok) 5 wStoreDone rfl rfl

/-- A pending broadcast due at minute 10, stored first. -/
def cxBroadLate : BroadcastRow :=
  { id := 1, title := "late", content := "", file_id := none,
    file_type := none, scheduled_at := some 10, is_sent := false,
    status := some "pending", sent_count := 0, target_lead_id := none,
    updated := 0 }

/-- A pending broadcast due earlier, at minute 5, stored second. -/
def cxBroadEarly : BroadcastRow :=
  { id := 2, title := "early", content := "", file_id := none,
    file_type := none, scheduled_at := some 5, is_sent := false,
    status := some "pending", sent_count := 0, target_lead_id := none,
    updated := 0 }

/-- C3 counterexample: with two due pending jobs, the query (LIMIT 1, no
ORDER BY) returns the first row in table order, job 1 due at minute 10,
even though job 2 is due earlier at minute 5 — and the sweep transitions
job 1, not the earliest-due job 2. -/
theorem broadcast_pick_not_earliest_cx :
    dueBroadcast 10 [cxBroadLate, cxBroadEarly] = some cxBroadLate ∧
    isDueBroadcast 10 cxBroadEarly = true ∧
    cxBroadEarly.scheduled_at = some 5 ∧ cxBroadLate.scheduled_at = some 10 ∧
    (5 : Nat) < 10 ∧
    Ev.setBroadcastSending 1 ∈
      (send_scheduled_broadcasts (fun _ => DeliveryResult.ok) 10
        { leadSources := [], users := [], schedules := [],
          broadcasts := [cxBroadLate, cxBroadEarly] }).2 ∧
    ¬ (Ev.setBroadcastSending 2 ∈
      (send_scheduled_broadcasts (fun _ => DeliveryResult.ok) 10
        { leadSources := [], users := [], schedules := [],
          broadcasts := [cxBroadLate, cxBroadEarly] }).2) := by
  decide

/-- C3 (amended): the sweep selects at most one job, only among jobs with
status pending-or-null, is_sent false and due timestamp ≤ now; among
several such jobs the first in table order is chosen (not necessarily the
earliest due); if none is due the sweep leaves the broadcast table
unchanged. -/
theorem broadcast_selection (deliver : Nat → DeliveryResult) (now : Nat)
    (s : Store) :
    (∀ b, dueBroadcast now s.broadcasts = some b →
      b ∈ s.broadcasts ∧ isDueBroadcast now b = true) ∧
    (∀ l₁ b l₂, s.broadcasts = l₁ ++ b :: l₂ →
      (∀ b' ∈ l₁, isDueBroadcast now b' = false) →
      isDueBroadcast now b = true →
      dueBroadcast now s.broadcasts = some b) ∧
    (dueBroadcast now s.broadcasts = none →
      (∀ b ∈ s.broadcasts, isDueBroadcast now b = false) ∧
      (send_scheduled_broadcasts deliver now s).1.broadcasts = s.broadcasts) := by
  refine ⟨?_, ?_, ?_⟩
  · intro b hb
    exact ⟨List.mem_of_find?_eq_some hb, List.find?_some hb⟩
  · intro l₁ b l₂ hsh hfalse htrue
    simp only [dueBroadcast, hsh]
    clear hsh
    revert hfalse
    induction l₁ with
    | nil =>
      intro _
      simp [List.find?_cons_of_pos _ htrue]
    | cons a l ih =>
      intro hfalse
      rw [List.cons_append, List.find?_cons_of_neg _ (by simp [hfalse a (List.mem_cons_self a l)])]
      exact ih (fun v hv => hfalse v (List.mem_cons_of_mem a hv))
  · intro hnone
    refine ⟨fun b hb => ?_, ?_⟩
    · have := List.find?_eq_none.1 hnone b hb
      simpa using this
    · cases hr : (duePersonalRows now s.users s.schedules).isEmpty <;>
        simp [send_scheduled_broadcasts, hnone, hr]

/-- Witness for C3's amended theorem at concrete stores: the selection
facts at a one-job table and the no-op fact at a completed table. -/
theorem broadcast_selection_witness :
    (cxBroadLate ∈ ([cxBroadLate] : List BroadcastRow) ∧
      isDueBroadcast 10 cxBroadLate = true) ∧
    dueBroadcast 10 [cxBroadLate] = some cxBroadLate ∧
    ((∀ b ∈ wStoreDone.broadcasts, isDueBroadcast 5 b = false) ∧
      (send_scheduled_broadcasts (fun _ => DeliveryResult.ok) 5 wStoreDone).1.broadcasts =
        wStoreDone.broadcasts) := by
  refine ⟨?_, ?_, ?_⟩
  · exact (broadcast_selection (fun _ => DeliveryResult.ok) 10
      { leadSources := [], users := [], schedules := [],
        broadcasts := [cxBroadLate] }).1 cxBroadLate rfl
  · exact (broadcast_selection (fun _ => DeliveryResult.ok) 10
      { leadSources := [], users := [], schedules := [],
        broadcasts := [cxBroadLate] }).2.1 [] cxBroadLate [] rfl
      (by intro v hv; cases hv) (by decide)
  · exact (broadcast_selection (fun _ => DeliveryResult.ok) 5 wStoreDone).2.2 rfl

theorem personalSweep_aux (deliver : Nat → DeliveryResult) :
    ∀ (rows : List PersonalRow) (schedules : List MessageScheduleRow)
      (tr : List Ev),
    rows.foldl (fun acc row =>
      (markSent row.id acc.1,
       acc.2 ++ [Ev.attemptPersonal row.id row.tg_id (deliver row.tg_id),
                 Ev.markPersonalSent row.id])) (schedules, tr) =
    (rows.foldl (fun acc row => markSent row.id acc) schedules,
     tr ++ rows.flatMap (fun row =>
       [Ev.attemptPersonal row.id row.tg_id (deliver row.tg_id),
        Ev.markPersonalSent row.id])) := by
  intro rows
  induction rows with
  | nil => intro schedules tr; simp
  | cons r rest ih =>
    intro schedules tr
    rw [List.foldl_cons, List.foldl_cons, ih]
    simp

theorem personalSweep_fst (deliver : Nat → DeliveryResult)
    (rows : List PersonalRow) (schedules : List MessageScheduleRow) :
    (personalSweep deliver rows schedules).1 =
      rows.foldl (fun acc row => markSent row.id acc) schedules := by
  unfold personalSweep
  rw [personalSweep_aux]

theorem personalSweep_snd (deliver : Nat → DeliveryResult)
    (rows : List PersonalRow) (schedules : List MessageScheduleRow) :
    (personalSweep deliver rows schedules).2 =
      rows.flatMap (fun row =>
        [Ev.attemptPersonal row.id row.tg_id (deliver row.tg_id),
         Ev.markPersonalSent row.id]) := by
  unfold personalSweep
  rw [personalSweep_aux]
  simp

theorem broadcastFanout_aux (deliver : Nat → DeliveryResult) :
    ∀ (recips : List Nat) (tr : List Ev) (n : Nat),
    recips.foldl (fun acc tg =>
      (acc.1 ++ [Ev.attemptBroadcast tg (deliver tg)],
       acc.2 + (if deliver tg = DeliveryResult.ok then 1 else 0))) (tr, n) =
    (tr ++ recips.map (fun tg => Ev.attemptBroadcast tg (deliver tg)),
     n + recips.countP (fun tg => deliver tg == DeliveryResult.ok)) := by
  intro recips
  induction recips with
  | nil => intro tr n; simp
  | cons tg rest ih =>
    intro tr n
    rw [List.foldl_cons, ih]
    refine Prod.ext (by simp) ?_
    simp only [List.countP_cons, beq_iff_eq]
    by_cases h : deliver tg = DeliveryResult.ok <;> simp [h] <;> omega

theorem broadcastFanout_spec (deliver : Nat → DeliveryResult)
    (recips : List Nat) :
    broadcastFanout deliver recips =
      (recips.map (fun tg => Ev.attemptBroadcast tg (deliver tg)),
       recips.countP (fun tg => deliver tg == DeliveryResult.ok)) := by
  unfold broadcastFanout
  rw [broadcastFanout_aux]
  simp

/-- The broadcast delivery attempts recorded in a trace, in order. -/
def attemptedRecipients (evs : List Ev) : List Nat :=
  evs.filterMap (fun e => match e with
    | Ev.attemptBroadcast tg _ => some tg
    | _ => none)

theorem attemptedRecipients_append (xs ys : List Ev) :
    attemptedRecipients (xs ++ ys) =
      attemptedRecipients xs ++ attemptedRecipients ys := by
  unfold attemptedRecipients
  rw [List.filterMap_append]

theorem attemptedRecipients_personal (deliver : Nat → DeliveryResult)
    (rows : List PersonalRow) (schedules : List MessageScheduleRow) :
    attemptedRecipients (personalSweep deliver rows schedules).2 = [] := by
  rw [personalSweep_snd]
  induction rows with
  | nil => simp [attemptedRecipients]
  | cons r rest ih =>
    rw [List.flatMap_cons]
    rw [attemptedRecipients_append, ih]
    simp [attemptedRecipients]

theorem attemptedRecipients_map (deliver : Nat → DeliveryResult)
    (recips : List Nat) :
    attemptedRecipients
      (recips.map (fun tg => Ev.attemptBroadcast tg (deliver tg))) = recips := by
  induction recips with
  | nil => rfl
  | cons a l ih =>
    unfold attemptedRecipients at ih ⊢
    rw [List.map_cons, List.filterMap_cons]
    simpa using ih

theorem finalizeRow_mem (bid total now : Nat) (bs : List BroadcastRow) :
    ∀ row ∈ finalizeRow bid total now bs, row.id = bid →
      row.status = some "sent" ∧ row.is_sent = true ∧
      row.sent_count = total := by
  intro row hrow hid
  rcases List.mem_map.1 hrow with ⟨b0, _, heq⟩
  by_cases h : b0.id = bid
  · rw [← heq]
    simp [h]
  · rw [← heq] at hid
    rw [if_neg h] at hid
    exact absurd hid h

/-- `get_users_by_lead_source` from `app/database/crud_admin.py` lines
92–103: SELECT User JOIN LeadSource WHERE LeadSource.id = :lid. -/
def get_users_by_lead_source (s : Store) (lid : Nat) : List UserRow :=
  s.users.filter (fun u => u.lead_source_id == some lid &&
    s.leadSources.any (fun ls => ls.id == lid))

/-- Python truthiness of the optional integer `target_lead_id`:
`None` and `0` are falsy. -/
def truthyNat : Option Nat → Bool
  | none => false
  | some n => n != 0

/-- Whether the file_type of a broadcast matches one of the four dispatch
branches of `send_broadcast_now`; an unmatched kind sends nothing. -/
def sbnKindMatch (b : BroadcastRow) : Bool :=
  b.file_type == some "text" || b.file_type == some "image" ||
  b.file_type == some "file" || b.file_type == some "video"

/-- The per-recipient loop of `send_broadcast_now` (lines 322–337): send
according to file_type and count the success; a file_type matching no
branch sends nothing, raises nothing, and is still counted; any exception
is caught and logged without counting. -/
def sbnFanout (deliver : Nat → DeliveryResult) (b : BroadcastRow)
    (users : List UserRow) : List Ev × Nat :=
  users.foldl (fun acc u =>
    if sbnKindMatch b then
      (acc.1 ++ [Ev.attemptBroadcast u.user_id (deliver u.user_id)],
       acc.2 + (if deliver u.user_id = DeliveryResult.ok then 1 else 0))
    else (acc.1, acc.2 + 1))
    ([], 0)

/-- UPDATE of the object state done at the end of `send_broadcast_now`
(lines 339–348; the duplicated assignment block collapses to one state
change): status = 'sent', is_sent = true, sent_count = :total. -/
def sbnFinalize (bid total : Nat) (broadcasts : List BroadcastRow) :
    List BroadcastRow :=
  broadcasts.map (fun b =>
    if b.id = bid then
      { b with status := some "sent", is_sent := true, sent_count := total }
    else b)

/-- `send_broadcast_now` from `app/database/crud_admin.py` lines 313–349:
fetch the broadcast by primary key (missing id is a silent no-op), resolve
the recipients from target_lead_id — segment members when truthy, every
user otherwise — fan deliveries out, then persist the sent state. -/
def send_broadcast_now (deliver : Nat → DeliveryResult) (s : Store)
    (broadcast_id : Nat) : Store × List Ev :=
  match s.broadcasts.find? (fun b => b.id == broadcast_id) with
  | none => (s, [])
  | some b =>
    let users := if truthyNat b.target_lead_id then
        get_users_by_lead_source s (b.target_lead_id.getD 0)
      else s.users
    let fan := sbnFanout deliver b users
    ({ s with broadcasts := sbnFinalize b.id fan.2 s.broadcasts },
     fan.1 ++ [Ev.finalizeBroadcast b.id fan.2, Ev.commit])

theorem sbnFanout_aux (deliver : Nat → DeliveryResult) (b : BroadcastRow)
    (hk : sbnKindMatch b = true) :
    ∀ (users : List UserRow) (tr : List Ev) (n : Nat),
    users.foldl (fun acc u =>
      if sbnKindMatch b then
        (acc.1 ++ [Ev.attemptBroadcast u.user_id (deliver u.user_id)],
         acc.2 + (if deliver u.user_id = DeliveryResult.ok then 1 else 0))
      else (acc.1, acc.2 + 1)) (tr, n) =
    (tr ++ users.map (fun u => Ev.attemptBroadcast u.user_id (deliver u.user_id)),
     n + users.countP (fun u => deliver u.user_id == DeliveryResult.ok)) := by
  intro users
  induction users with
  | nil => intro tr n; simp
  | cons u rest ih =>
    intro tr n
    rw [List.foldl_cons, if_pos hk, ih]
    refine Prod.ext (by simp) ?_
    simp only [List.countP_cons, beq_iff_eq]
    by_cases h : deliver u.user_id = DeliveryResult.ok <;> simp [h] <;> omega

theorem sbnFanout_spec (deliver : Nat → DeliveryResult) (b : BroadcastRow)
    (users : List UserRow) (hk : sbnKindMatch b = true) :
    sbnFanout deliver b users =
      (users.map (fun u => Ev.attemptBroadcast u.user_id (deliver u.user_id)),
       users.countP (fun u => deliver u.user_id == DeliveryResult.ok)) := by
  unfold sbnFanout
  rw [sbnFanout_aux deliver b hk]
  simp

theorem attemptedRecipients_userMap (deliver : Nat → DeliveryResult)
    (users : List UserRow) :
    attemptedRecipients
      (users.map (fun u => Ev.attemptBroadcast u.user_id (deliver u.user_id))) =
      users.map (fun u => u.user_id) := by
  induction users with
  | nil => rfl
  | cons u l ih =>
    unfold attemptedRecipients at ih ⊢
    rw [List.map_cons, List.filterMap_cons, List.map_cons]
    simpa using ih

/-- A lead source (segment) used in the C1 scenario. -/
def cxLeadSrc : LeadSourceRow := { id := 1, name := "webinar", description := none }

/-- A contact inside segment 1. -/
def cxUserIn : UserRow :=
  { id := 1, user_id := 101, username := none, first_name := none,
    last_name := none, phone := none, lead_source_id := some 1 }

/-- A contact outside every segment. -/
def cxUserOut : UserRow :=
  { id := 2, user_id := 102, username := none, first_name := none,
    last_name := none, phone := none, lead_source_id := none }

/-- A due broadcast with a segment filter on segment 1. -/
def cxTargeted : BroadcastRow :=
  { id := 5, title := "t", content := "c", file_id := none,
    file_type := some "text", scheduled_at := some 0, is_sent := false,
    status := some "pending", sent_count := 0, target_lead_id := some 1,
    updated := 0 }

/-- Store for the C1 scenario: one segment, one contact in it, one contact
outside it, one due broadcast filtered to the segment. -/
def cxStoreSeg : Store :=
  { leadSources := [cxLeadSrc], users := [cxUserIn, cxUserOut],
    schedules := [], broadcasts := [cxTargeted] }

/-- C1 counterexample: a due broadcast targeted at segment 1 is executed
by the dispatcher sweep, yet contact 102 — who belongs to no segment — still
receives a delivery attempt, because the sweep's recipient query selects
every user and ignores target_lead_id. -/
theorem dispatcher_ignores_segment_cx :
    cxTargeted.target_lead_id = some 1 ∧
    cxUserOut.lead_source_id ≠ some 1 ∧
    Ev.attemptBroadcast 102 DeliveryResult.ok ∈
      (send_scheduled_broadcasts (fun _ => DeliveryResult.ok) 0 cxStoreSeg).2 := by
  decide

theorem sweep_trace_shape (deliver : Nat → DeliveryResult) (now : Nat)
    (s : Store) (b : BroadcastRow)
    (hb : dueBroadcast now s.broadcasts = some b) :
    (send_scheduled_broadcasts deliver now s).2 =
      (personalSweep deliver (duePersonalRows now s.users s.schedules)
        s.schedules).2
      ++ [Ev.setBroadcastSending b.id, Ev.commit]
      ++ s.users.map (fun u => Ev.attemptBroadcast u.user_id (deliver u.user_id))
      ++ [Ev.finalizeBroadcast b.id
            ((s.users.map (fun u => u.user_id)).countP
              (fun tg => deliver tg == DeliveryResult.ok)), Ev.commit] := by
  simp only [send_scheduled_broadcasts, hb]
  rw [broadcastFanout_spec]
  rw [List.map_map]
  simp [List.append_assoc]

theorem sweep_broadcasts_shape (deliver : Nat → DeliveryResult) (now : Nat)
    (s : Store) (b : BroadcastRow)
    (hb : dueBroadcast now s.broadcasts = some b) :
    (send_scheduled_broadcasts deliver now s).1.broadcasts =
      finalizeRow b.id
        ((s.users.map (fun u => u.user_id)).countP
          (fun tg => deliver tg == DeliveryResult.ok)) now
        (setSending b.id s.broadcasts) := by
  simp only [send_scheduled_broadcasts, hb]
  rw [broadcastFanout_spec]

theorem isDueBroadcast_parts (now : Nat) (b : BroadcastRow)
    (hdue : isDueBroadcast now b = true) :
    (b.status = none ∨ b.status = some "pending") ∧ b.is_sent = false := by
  unfold isDueBroadcast at hdue
  rw [Bool.and_eq_true, Bool.and_eq_true] at hdue
  obtain ⟨⟨-, hstat⟩, hsent⟩ := hdue
  constructor
  · rw [Bool.or_eq_true] at hstat
    rcases hstat with h | h
    · exact Or.inl (by simpa using h)
    · exact Or.inr (by simpa using h)
  · simpa using hsent

/-- C1 (amended): the recipient set of a broadcast depends on the path.
The dispatcher sweep attempts delivery to every contact, regardless of the
job's segment filter; the immediate path `send_broadcast_now` attempts
delivery exactly for the members of the target segment when target_lead_id
is set (and truthy), and for every contact when it is null. -/
theorem broadcast_recipient_resolution (deliver : Nat → DeliveryResult)
    (now : Nat) (s : Store) :
    (∀ b, dueBroadcast now s.broadcasts = some b →
      attemptedRecipients (send_scheduled_broadcasts deliver now s).2 =
        s.users.map (fun u => u.user_id)) ∧
    (∀ bid b lid, s.broadcasts.find? (fun v => v.id == bid) = some b →
      b.target_lead_id = some lid → lid ≠ 0 → sbnKindMatch b = true →
      attemptedRecipients (send_broadcast_now deliver s bid).2 =
        (get_users_by_lead_source s lid).map (fun u => u.user_id) ∧
      (∀ tg ∈ attemptedRecipients (send_broadcast_now deliver s bid).2,
        ∃ u ∈ s.users, u.user_id = tg ∧ u.lead_source_id = some lid)) ∧
    (∀ bid b, s.broadcasts.find? (fun v => v.id == bid) = some b →
      b.target_lead_id = none → sbnKindMatch b = true →
      attemptedRecipients (send_broadcast_now deliver s bid).2 =
        s.users.map (fun u => u.user_id)) := by
  refine ⟨?_, ?_, ?_⟩
  · intro b hb
    rw [sweep_trace_shape deliver now s b hb]
    simp only [attemptedRecipients_append]
    rw [attemptedRecipients_personal, attemptedRecipients_userMap]
    simp [attemptedRecipients]
  · intro bid b lid hfind htarget hlid hkind
    have htruthy : truthyNat b.target_lead_id = true := by
      rw [htarget]
      simpa [truthyNat] using hlid
    have hrec : attemptedRecipients (send_broadcast_now deliver s bid).2 =
        (get_users_by_lead_source s lid).map (fun u => u.user_id) := by
      simp only [send_broadcast_now, hfind, htruthy, if_pos]
      rw [sbnFanout_spec deliver b _ hkind]
      rw [attemptedRecipients_append, attemptedRecipients_userMap]
      simp [attemptedRecipients, htarget]
    refine ⟨hrec, ?_⟩
    intro tg htg
    rw [hrec] at htg
    rcases List.mem_map.1 htg with ⟨u, hu, hutg⟩
    rcases List.mem_filter.1 hu with ⟨humem, hup⟩
    refine ⟨u, humem, hutg, ?_⟩
    rw [Bool.and_eq_true] at hup
    simpa using hup.1
  · intro bid b hfind htarget hkind
    have htruthy : truthyNat b.target_lead_id = false := by
      rw [htarget]
      rfl
    simp only [send_broadcast_now, hfind, htruthy, Bool.false_eq_true,
      if_neg, ite_false]
    rw [sbnFanout_spec deliver b _ hkind]
    rw [attemptedRecipients_append, attemptedRecipients_userMap]
    simp [attemptedRecipients]

/-- Witness for C1's amended theorem on the two-contact segment store:
the dispatcher attempts both contacts despite the filter, the immediate
path attempts only the segment member. -/
theorem broadcast_recipient_resolution_witness :
    attemptedRecipients
      (send_scheduled_broadcasts (fun _ => DeliveryResult.ok) 0 cxStoreSeg).2 =
      [101, 102] ∧
    attemptedRecipients
      (send_broadcast_now (fun _ => DeliveryResult.ok) cxStoreSeg 5).2 =
      [101] := by
  constructor
  · have h := (broadcast_recipient_resolution (fun _ => DeliveryResult.ok)
      0 cxStoreSeg).1 cxTargeted rfl
    rw [h]
    decide
  · have h := ((broadcast_recipient_resolution (fun _ => DeliveryResult.ok)
      0 cxStoreSeg).2.1 5 cxTargeted 1 rfl rfl (by decide) (by decide)).1
    rw [h]
    decide

theorem sweep_broadcasts_none (deliver : Nat → DeliveryResult) (now : Nat)
    (s : Store) (hb : dueBroadcast now s.broadcasts = none) :
    (send_scheduled_broadcasts deliver now s).1.broadcasts = s.broadcasts := by
  cases hr : (duePersonalRows now s.users s.schedules).isEmpty <;>
    simp [send_scheduled_broadcasts, hb, hr]

theorem finalize_setSending (bid total now : Nat) (l : List BroadcastRow) :
    finalizeRow bid total now (setSending bid l) =
      finalizeRow bid total now l := by
  unfold finalizeRow setSending
  rw [List.map_map]
  refine List.map_congr_left ?_
  intro r0 _
  by_cases hc : r0.id = bid
  · simp only [Function.comp_apply, if_pos hc]
  · simp only [Function.comp_apply, if_neg hc]

theorem isDueBroadcast_of_sent (row : BroadcastRow) (h : row.is_sent = true)
    (t : Nat) : isDueBroadcast t row = false := by
  unfold isDueBroadcast
  simp [h]

theorem sweep_preserves_sent (bid total : Nat)
    (deliver' : Nat → DeliveryResult) (now' : Nat) (s' : Store)
    (hP : ∀ row ∈ s'.broadcasts, row.id = bid →
      row.status = some "sent" ∧ row.is_sent = true ∧ row.sent_count = total) :
    ∀ row ∈ (send_scheduled_broadcasts deliver' now' s').1.broadcasts,
      row.id = bid →
      row.status = some "sent" ∧ row.is_sent = true ∧
      row.sent_count = total := by
  intro row hrow hid
  cases hb : dueBroadcast now' s'.broadcasts with
  | none =>
    rw [sweep_broadcasts_none deliver' now' s' hb] at hrow
    exact hP row hrow hid
  | some b2 =>
    have hmem := List.mem_of_find?_eq_some hb
    have hparts := isDueBroadcast_parts now' b2 (List.find?_some hb)
    have hne : b2.id ≠ bid := by
      intro h
      have hsent := (hP b2 hmem h).2.1
      rw [hparts.2] at hsent
      cases hsent
    rw [sweep_broadcasts_shape deliver' now' s' b2 hb,
      finalize_setSending] at hrow
    rcases List.mem_map.1 hrow with ⟨r0, hr0, heq⟩
    by_cases hc : r0.id = b2.id
    · exfalso
      rw [← heq, if_pos hc] at hid
      have hid0 : r0.id = bid := hid
      exact hne (by rw [← hc]; exact hid0)
    · rw [← heq, if_neg hc] at hid ⊢
      exact hP r0 hr0 hid

/-- C4: within the sweep, a processed broadcast job moves forward only —
it is selected only with status pending-or-null and is_sent false, the
'sending' write and its commit appear in the trace before every recipient
attempt (the personal prefix contains no broadcast event), the final sent
state (status 'sent', is_sent, sent_count) is written by the single
finalize update that follows all recipient attempts, and sent_count is
then frozen: the finalized job is never due again on the resulting store,
and every later tick — on any store in which the job is already in its
finalized state — leaves that state (status, is_sent, sent_count)
unchanged. -/
theorem broadcast_lifecycle (deliver : Nat → DeliveryResult) (now : Nat)
    (s : Store) (b : BroadcastRow)
    (hb : dueBroadcast now s.broadcasts = some b) :
    (b.status = none ∨ b.status = some "pending") ∧ b.is_sent = false ∧
    (send_scheduled_broadcasts deliver now s).2 =
      (personalSweep deliver (duePersonalRows now s.users s.schedules)
        s.schedules).2
      ++ [Ev.setBroadcastSending b.id, Ev.commit]
      ++ s.users.map (fun u => Ev.attemptBroadcast u.user_id (deliver u.user_id))
      ++ [Ev.finalizeBroadcast b.id
            ((s.users.map (fun u => u.user_id)).countP
              (fun tg => deliver tg == DeliveryResult.ok)), Ev.commit] ∧
    (∀ ev ∈ (personalSweep deliver (duePersonalRows now s.users s.schedules)
        s.schedules).2,
      (∀ i, ev ≠ Ev.setBroadcastSending i) ∧
      (∀ i t, ev ≠ Ev.finalizeBroadcast i t) ∧
      (∀ tg r, ev ≠ Ev.attemptBroadcast tg r)) ∧
    (∀ row ∈ (send_scheduled_broadcasts deliver now s).1.broadcasts,
      row.id = b.id →
      row.status = some "sent" ∧ row.is_sent = true ∧
      row.sent_count = (s.users.map (fun u => u.user_id)).countP
        (fun tg => deliver tg == DeliveryResult.ok)) ∧
    (∀ t : Nat, ∀ row ∈ (send_scheduled_broadcasts deliver now s).1.broadcasts,
      row.id = b.id → isDueBroadcast t row = false) ∧
    (∀ (s' : Store) (deliver' : Nat → DeliveryResult) (now' : Nat),
      (∀ row ∈ s'.broadcasts, row.id = b.id →
        row.status = some "sent" ∧ row.is_sent = true ∧
        row.sent_count = (s.users.map (fun u => u.user_id)).countP
          (fun tg => deliver tg == DeliveryResult.ok)) →
      (∀ row ∈ (send_scheduled_broadcasts deliver' now' s').1.broadcasts,
        row.id = b.id →
        row.status = some "sent" ∧ row.is_sent = true ∧
        row.sent_count = (s.users.map (fun u => u.user_id)).countP
          (fun tg => deliver tg == DeliveryResult.ok))) := by
  have hparts := isDueBroadcast_parts now b (List.find?_some hb)
  have hfinal : ∀ row ∈ (send_scheduled_broadcasts deliver now s).1.broadcasts,
      row.id = b.id →
      row.status = some "sent" ∧ row.is_sent = true ∧
      row.sent_count = (s.users.map (fun u => u.user_id)).countP
        (fun tg => deliver tg == DeliveryResult.ok) := by
    intro row hrow hid
    rw [sweep_broadcasts_shape deliver now s b hb] at hrow
    exact finalizeRow_mem _ _ _ _ row hrow hid
  refine ⟨hparts.1, hparts.2, sweep_trace_shape deliver now s b hb,
    ?_, hfinal, ?_, ?_⟩
  · intro ev hev
    rw [personalSweep_snd] at hev
    rcases List.mem_flatMap.1 hev with ⟨row, -, hin⟩
    simp only [List.mem_cons, List.not_mem_nil, or_false] at hin
    rcases hin with h | h <;> subst h
    · exact ⟨fun i => by simp, fun i t => by simp, fun tg r => by simp⟩
    · exact ⟨fun i => by simp, fun i t => by simp, fun tg r => by simp⟩
  · intro t row hrow hid
    exact isDueBroadcast_of_sent row (hfinal row hrow hid).2.1 t
  · intro s' deliver' now' hP
    exact sweep_preserves_sent b.id _ deliver' now' s' hP

/-- Witness for C4 at the concrete segment store: the full tick trace of
the due broadcast, and the job's pre-state. -/
theorem broadcast_lifecycle_witness :
    (send_scheduled_broadcasts (fun _ => DeliveryResult.ok) 0 cxStoreSeg).2 =
      [Ev.setBroadcastSending 5, Ev.commit,
       Ev.attemptBroadcast 101 DeliveryResult.ok,
       Ev.attemptBroadcast 102 DeliveryResult.ok,
       Ev.finalizeBroadcast 5 2, Ev.commit] ∧
    cxTargeted.is_sent = false := by
  have h := broadcast_lifecycle (fun _ => DeliveryResult.ok) 0 cxStoreSeg
    cxTargeted rfl
  refine ⟨?_, h.2.1⟩
  rw [h.2.2.1]
  decide

theorem countP_ok_sub (deliver : Nat → DeliveryResult) (l : List UserRow)
    (h : ∀ u ∈ l, deliver u.user_id = DeliveryResult.ok ∨
      deliver u.user_id = DeliveryResult.blocked) :
    l.countP (fun u => deliver u.user_id == DeliveryResult.ok) =
      l.length - l.countP (fun u => deliver u.user_id == DeliveryResult.blocked) := by
  induction l with
  | nil => simp
  | cons u rest ih =>
    have hu := h u (List.mem_cons_self u rest)
    have hrest := ih (fun v hv => h v (List.mem_cons_of_mem u hv))
    have hle : rest.countP (fun v => deliver v.user_id == DeliveryResult.blocked) ≤
        rest.length := List.countP_le_length _
    rcases hu with hu | hu <;>
      simp only [List.countP_cons, beq_iff_eq, hu, List.length_cons] <;>
      simp <;> omega

/-- C5: when delivery fails with the permanent blocked (unreachable) error
for exactly the blocked contacts and succeeds for all others, the swept
broadcast ends with sent_count = n − k (n contacts, k blocked) and
status 'sent'. -/
theorem broadcast_sent_count (deliver : Nat → DeliveryResult) (now : Nat)
    (s : Store) (b : BroadcastRow)
    (hb : dueBroadcast now s.broadcasts = some b)
    (hcls : ∀ u ∈ s.users, deliver u.user_id = DeliveryResult.ok ∨
      deliver u.user_id = DeliveryResult.blocked) :
    ∀ row ∈ (send_scheduled_broadcasts deliver now s).1.broadcasts,
      row.id = b.id →
      row.sent_count = s.users.length -
        s.users.countP (fun u => deliver u.user_id == DeliveryResult.blocked) ∧
      row.status = some "sent" ∧ row.is_sent = true := by
  intro row hrow hid
  rw [sweep_broadcasts_shape deliver now s b hb] at hrow
  have hfin := finalizeRow_mem _ _ _ _ row hrow hid
  have hcount : (s.users.map (fun u => u.user_id)).countP
      (fun tg => deliver tg == DeliveryResult.ok) =
      s.users.length -
        s.users.countP (fun u => deliver u.user_id == DeliveryResult.blocked) := by
    rw [List.countP_map]
    exact countP_ok_sub deliver s.users hcls
  exact ⟨hcount ▸ hfin.2.2, hfin.1, hfin.2.1⟩

/-- Witness for C5: two contacts, contact 102 blocked, one success —
sent_count 1 and status 'sent' on the finalized row. -/
theorem broadcast_sent_count_witness :
    (send_scheduled_broadcasts
        (fun tg => if tg == 101 then DeliveryResult.ok else DeliveryResult.blocked)
        0 cxStoreSeg).1.broadcasts.all
      (fun row => decide (row.sent_count = 1 ∧ row.status = some "sent" ∧
        row.is_sent = true)) = true := by
  have h := broadcast_sent_count
    (fun tg => if tg == 101 then DeliveryResult.ok else DeliveryResult.blocked)
    0 cxStoreSeg cxTargeted rfl
    (by intro u hu; fin_cases hu <;> simp [cxUserIn, cxUserOut])
  rw [List.all_eq_true]
  intro row hrow
  have hid : row.id = cxTargeted.id := by
    rw [sweep_broadcasts_shape _ 0 cxStoreSeg cxTargeted rfl] at hrow
    simp only [cxStoreSeg, cxTargeted, finalizeRow, setSending, List.map_map,
      List.mem_map, List.mem_cons, List.not_mem_nil, or_false] at hrow
    rcases hrow with ⟨b0, hb0, heq⟩
    rw [hb0] at heq
    rw [← heq]
    rfl
  have hr := h row hrow hid
  have hn : cxStoreSeg.users.length -
      cxStoreSeg.users.countP
        (fun u => (if u.user_id == 101 then DeliveryResult.ok
          else DeliveryResult.blocked) == DeliveryResult.blocked) = 1 := by decide
  rw [hn] at hr
  exact decide_eq_true hr

theorem sweep_schedules_shape (deliver : Nat → DeliveryResult) (now : Nat)
    (s : Store) :
    (send_scheduled_broadcasts deliver now s).1.schedules =
      (personalSweep deliver (duePersonalRows now s.users s.schedules)
        s.schedules).1 := by
  cases hb : dueBroadcast now s.broadcasts with
  | none =>
    cases hr : (duePersonalRows now s.users s.schedules).isEmpty <;>
      simp [send_scheduled_broadcasts, hb, hr]
  | some b =>
    simp [send_scheduled_broadcasts, hb]

theorem sweep_users_shape (deliver : Nat → DeliveryResult) (now : Nat)
    (s : Store) :
    (send_scheduled_broadcasts deliver now s).1.users = s.users := by
  cases hb : dueBroadcast now s.broadcasts with
  | none =>
    cases hr : (duePersonalRows now s.users s.schedules).isEmpty <;>
      simp [send_scheduled_broadcasts, hb, hr]
  | some b =>
    simp [send_scheduled_broadcasts, hb]

theorem foldl_markSent (rows : List PersonalRow) :
    ∀ sch : List MessageScheduleRow,
    rows.foldl (fun acc row => markSent row.id acc) sch =
      sch.map (fun r =>
        if r.id ∈ rows.map (fun pr => pr.id) then { r with sent := true }
        else r) := by
  induction rows with
  | nil =>
    intro sch
    simp
  | cons pr rest ih =>
    intro sch
    rw [List.foldl_cons, ih (markSent pr.id sch)]
    unfold markSent
    rw [List.map_map]
    refine List.map_congr_left ?_
    intro r _
    by_cases h1 : r.id = pr.id
    · have hmem : r.id ∈ (pr :: rest).map (fun pr => pr.id) := by
        rw [List.map_cons]
        exact List.mem_cons.2 (Or.inl h1)
      simp only [Function.comp_apply, if_pos h1, if_pos hmem]
      by_cases h2 : ({ r with sent := true } : MessageScheduleRow).id ∈
          rest.map (fun pr => pr.id)
      · rw [if_pos h2]
      · rw [if_neg h2]
    · have hmem : (r.id ∈ (pr :: rest).map (fun pr => pr.id)) ↔
          (r.id ∈ rest.map (fun pr => pr.id)) := by
        rw [List.map_cons]
        simp [List.mem_cons, h1]
      simp only [Function.comp_apply, if_neg h1]
      by_cases h2 : r.id ∈ rest.map (fun pr => pr.id)
      · rw [if_pos h2, if_pos (hmem.2 h2)]
      · rw [if_neg h2, if_neg (fun hc => h2 (hmem.1 hc))]

/-- Number of personal delivery attempts for one schedule entry recorded
in a trace. -/
def personalAttemptCount (mid : Nat) (evs : List Ev) : Nat :=
  evs.countP (fun ev => match ev with
    | Ev.attemptPersonal i _ _ => i == mid
    | _ => false)

theorem personalAttemptCount_append (mid : Nat) (xs ys : List Ev) :
    personalAttemptCount mid (xs ++ ys) =
      personalAttemptCount mid xs + personalAttemptCount mid ys := by
  unfold personalAttemptCount
  rw [List.countP_append]

theorem personalAttemptCount_eq_zero (mid : Nat) (tail : List Ev)
    (h : ∀ ev ∈ tail, ∀ i tg r, ev ≠ Ev.attemptPersonal i tg r) :
    personalAttemptCount mid tail = 0 := by
  unfold personalAttemptCount
  rw [List.countP_eq_zero]
  intro ev hev
  cases ev with
  | attemptPersonal i tg r => exact fun _ => h _ hev i tg r rfl
  | markPersonalSent i => simp
  | setBroadcastSending i => simp
  | commit => simp
  | attemptBroadcast tg r => simp
  | finalizeBroadcast i t => simp

theorem personalAttemptCount_flatMap (deliver : Nat → DeliveryResult)
    (mid : Nat) (rows : List PersonalRow) :
    personalAttemptCount mid (rows.flatMap (fun row =>
      [Ev.attemptPersonal row.id row.tg_id (deliver row.tg_id),
       Ev.markPersonalSent row.id])) =
      rows.countP (fun row => row.id == mid) := by
  induction rows with
  | nil => rfl
  | cons r rest ih =>
    rw [List.flatMap_cons]
    unfold personalAttemptCount at ih ⊢
    rw [List.countP_append, ih, List.countP_cons]
    by_cases h : (r.id == mid) = true <;>
      simp [List.countP_cons, h] <;> omega

theorem sweep_trace_decomp (deliver : Nat → DeliveryResult) (now : Nat)
    (s : Store) :
    ∃ tail, (send_scheduled_broadcasts deliver now s).2 =
      (personalSweep deliver (duePersonalRows now s.users s.schedules)
        s.schedules).2 ++ tail ∧
      ∀ ev ∈ tail, ∀ i tg r, ev ≠ Ev.attemptPersonal i tg r := by
  cases hb : dueBroadcast now s.broadcasts with
  | none =>
    cases hr : (duePersonalRows now s.users s.schedules).isEmpty
    · refine ⟨[Ev.commit], by simp [send_scheduled_broadcasts, hb, hr], ?_⟩
      intro ev hev i tg r
      simp only [List.mem_cons, List.not_mem_nil, or_false] at hev
      subst hev
      simp
    · refine ⟨[], by simp [send_scheduled_broadcasts, hb, hr], ?_⟩
      intro ev hev
      cases hev
  | some b =>
    refine ⟨[Ev.setBroadcastSending b.id, Ev.commit]
      ++ s.users.map (fun u => Ev.attemptBroadcast u.user_id (deliver u.user_id))
      ++ [Ev.finalizeBroadcast b.id
            ((s.users.map (fun u => u.user_id)).countP
              (fun tg => deliver tg == DeliveryResult.ok)), Ev.commit], ?_, ?_⟩
    · rw [sweep_trace_shape deliver now s b hb]
      simp [List.append_assoc]
    · intro ev hev i tg r
      rcases List.mem_append.1 hev with h | h
      · rcases List.mem_append.1 h with h2 | h2
        · simp only [List.mem_cons, List.not_mem_nil, or_false] at h2
          rcases h2 with h3 | h3 <;> subst h3 <;> simp
        · rcases List.mem_map.1 h2 with ⟨u, -, h3⟩
          rw [← h3]
          simp
      · simp only [List.mem_cons, List.not_mem_nil, or_false] at h
        rcases h with h3 | h3 <;> subst h3 <;> simp

theorem mem_duePersonal_src (now : Nat) (users : List UserRow)
    (schedules : List MessageScheduleRow) (pr : PersonalRow)
    (h : pr ∈ duePersonalRows now users schedules) :
    ∃ ms ∈ schedules, ms.send_time ≤ now ∧ ms.sent = false ∧
      pr.id = ms.id := by
  rcases List.mem_flatMap.1 h with ⟨ms, hms, hin⟩
  by_cases hc : ms.send_time ≤ now ∧ ms.sent = false
  · rw [if_pos hc] at hin
    rcases List.mem_map.1 hin with ⟨u, -, heq⟩
    exact ⟨ms, hms, hc.1, hc.2, by rw [← heq]⟩
  · rw [if_neg hc] at hin
    cases hin

theorem e_row_mem_due (now : Nat) (users : List UserRow)
    (schedules : List MessageScheduleRow) (e : MessageScheduleRow)
    (u : UserRow) (he : e ∈ schedules) (hdue : e.send_time ≤ now)
    (hunsent : e.sent = false) (hu : u ∈ users) (huid : u.id = e.user_id) :
    ({ id := e.id, message_text := e.message_text, tg_id := u.user_id } :
      PersonalRow) ∈ duePersonalRows now users schedules := by
  unfold duePersonalRows
  refine List.mem_flatMap.2 ⟨e, he, ?_⟩
  rw [if_pos ⟨hdue, hunsent⟩]
  exact List.mem_map_of_mem _ (List.mem_filter.2 ⟨hu, by simp [huid]⟩)

theorem mem_duePersonal_ids (now : Nat) (users : List UserRow)
    (schedules : List MessageScheduleRow) (e : MessageScheduleRow)
    (he : e ∈ schedules) (hdue : e.send_time ≤ now)
    (hunsent : e.sent = false) (hfk : ∃ u ∈ users, u.id = e.user_id) :
    e.id ∈ (duePersonalRows now users schedules).map (fun pr => pr.id) := by
  rcases hfk with ⟨u, hu, huid⟩
  exact List.mem_map.2
    ⟨{ id := e.id, message_text := e.message_text, tg_id := u.user_id },
     e_row_mem_due now users schedules e u he hdue hunsent hu huid, rfl⟩

theorem filter_id_nil (users : List UserRow) (v : Nat)
    (hv : ¬ v ∈ users.map (fun u => u.id)) :
    users.filter (fun u => u.id == v) = [] := by
  induction users with
  | nil => rfl
  | cons u rest ih =>
    rw [List.map_cons] at hv
    rw [List.filter_cons]
    have h1 : ¬ (u.id == v) = true := by
      simp only [beq_iff_eq]
      intro h
      exact hv (List.mem_cons.2 (Or.inl h.symm))
    rw [if_neg h1]
    exact ih (fun hm => hv (List.mem_cons.2 (Or.inr hm)))

theorem filter_id_length_one (users : List UserRow) (v : Nat)
    (hnd : (users.map (fun u => u.id)).Nodup)
    (hx : ∃ u ∈ users, u.id = v) :
    (users.filter (fun u => u.id == v)).length = 1 := by
  induction users with
  | nil =>
    rcases hx with ⟨u, hu, -⟩
    cases hu
  | cons u0 rest ih =>
    rw [List.map_cons, List.nodup_cons] at hnd
    rw [List.filter_cons]
    by_cases h0 : u0.id = v
    · rw [if_pos (by simpa using h0)]
      rw [filter_id_nil rest v (by rw [← h0]; exact hnd.1)]
      rfl
    · rw [if_neg (by simpa using h0)]
      refine ih hnd.2 ?_
      rcases hx with ⟨u, hu, huv⟩
      rcases List.mem_cons.1 hu with h | h
      · subst h
        exact absurd huv h0
      · exact ⟨u, h, huv⟩

theorem duePersonal_countP_zero (now : Nat) (users : List UserRow)
    (schedules : List MessageScheduleRow) (v : Nat)
    (hv : ¬ v ∈ schedules.map (fun r => r.id)) :
    (duePersonalRows now users schedules).countP (fun pr => pr.id == v) = 0 := by
  rw [List.countP_eq_zero]
  intro pr hpr
  rcases mem_duePersonal_src now users schedules pr hpr with ⟨ms, hms, -, -, hid⟩
  have hne : pr.id ≠ v := by
    rw [hid]
    intro h
    exact hv (h ▸ List.mem_map_of_mem (fun r => r.id) hms)
  simpa [beq_iff_eq] using hne

theorem duePersonal_countP_one (now : Nat) (users : List UserRow)
    (schedules : List MessageScheduleRow) (e : MessageScheduleRow)
    (hdue : e.send_time ≤ now) (hunsent : e.sent = false)
    (hfk : ∃ u ∈ users, u.id = e.user_id)
    (hndU : (users.map (fun u => u.id)).Nodup) :
    ∀ hhe : e ∈ schedules, (schedules.map (fun r => r.id)).Nodup →
    (duePersonalRows now users schedules).countP (fun pr => pr.id == e.id) = 1 := by
  induction schedules with
  | nil =>
    intro he _
    cases he
  | cons ms rest ih =>
    intro he hndS
    rw [List.map_cons, List.nodup_cons] at hndS
    have hsplit : duePersonalRows now users (ms :: rest) =
        (if ms.send_time ≤ now ∧ ms.sent = false then
          (users.filter (fun u => u.id == ms.user_id)).map
            (fun u => { id := ms.id, message_text := ms.message_text,
                        tg_id := u.user_id })
         else []) ++ duePersonalRows now users rest := by
      unfold duePersonalRows
      rw [List.flatMap_cons]
    rw [hsplit, List.countP_append]
    rcases List.mem_cons.1 he with heq | hmem
    · subst heq
      rw [if_pos ⟨hdue, hunsent⟩]
      have hone : ((users.filter (fun u => u.id == e.user_id)).map
          (fun u => ({ id := e.id, message_text := e.message_text,
                       tg_id := u.user_id } : PersonalRow))).countP
            (fun pr => pr.id == e.id) =
          (users.filter (fun u => u.id == e.user_id)).length := by
        rw [List.countP_map]
        simp [Function.comp_def]
      rw [hone, filter_id_length_one users e.user_id hndU hfk]
      rw [duePersonal_countP_zero now users rest e.id hndS.1]
    · have hne : ¬ (ms.id = e.id) := by
        intro h
        exact hndS.1 (h ▸ List.mem_map_of_mem (fun r => r.id) hmem)
      have hblock : (if ms.send_time ≤ now ∧ ms.sent = false then
          (users.filter (fun u => u.id == ms.user_id)).map
            (fun u => ({ id := ms.id, message_text := ms.message_text,
                         tg_id := u.user_id } : PersonalRow))
         else []).countP (fun pr => pr.id == e.id) = 0 := by
        by_cases hc : ms.send_time ≤ now ∧ ms.sent = false
        · rw [if_pos hc, List.countP_eq_zero]
          intro pr hpr
          rcases List.mem_map.1 hpr with ⟨u, -, hequ⟩
          rw [← hequ]
          simpa [beq_iff_eq] using hne
        · rw [if_neg hc]
          rfl
      rw [hblock, ih hmem hndS.2]

/-- C2: a PersonalScheduleEntry due at the tick start with sent = false is
attempted exactly once (for any outcome oracle, i.e. regardless of success,
blocked recipient or any other error), the sent-flag write appears in the
trace immediately after that entry's attempt, the entry ends the tick with
sent = true, and the resulting store never selects it as due again. -/
theorem personal_entry_swept (deliver : Nat → DeliveryResult) (now : Nat)
    (s : Store) (e : MessageScheduleRow) (he : e ∈ s.schedules)
    (hdue : e.send_time ≤ now) (hunsent : e.sent = false)
    (hfk : ∃ u ∈ s.users, u.id = e.user_id)
    (hndS : (s.schedules.map (fun r => r.id)).Nodup)
    (hndU : (s.users.map (fun u => u.id)).Nodup) :
    personalAttemptCount e.id (send_scheduled_broadcasts deliver now s).2 = 1 ∧
    (∃ l₁ l₂ tg res, (send_scheduled_broadcasts deliver now s).2 =
      l₁ ++ [Ev.attemptPersonal e.id tg res, Ev.markPersonalSent e.id] ++ l₂) ∧
    (∀ r' ∈ (send_scheduled_broadcasts deliver now s).1.schedules,
      r'.id = e.id → r'.sent = true) ∧
    (∀ now' : Nat, ∀ pr ∈ duePersonalRows now'
        (send_scheduled_broadcasts deliver now s).1.users
        (send_scheduled_broadcasts deliver now s).1.schedules,
      pr.id ≠ e.id) := by
  have hids := mem_duePersonal_ids now s.users s.schedules e he hdue hunsent hfk
  have hmark : ∀ r' ∈ (send_scheduled_broadcasts deliver now s).1.schedules,
      r'.id = e.id → r'.sent = true := by
    intro r' hr' hid
    rw [sweep_schedules_shape, personalSweep_fst, foldl_markSent] at hr'
    rcases List.mem_map.1 hr' with ⟨r0, -, heq⟩
    by_cases h : r0.id ∈ (duePersonalRows now s.users s.schedules).map
        (fun pr => pr.id)
    · rw [← heq, if_pos h]
    · rw [← heq, if_neg h] at hid
      rw [← heq, if_neg h]
      exact absurd (hid ▸ hids) h
  obtain ⟨tail, htr, htail⟩ := sweep_trace_decomp deliver now s
  refine ⟨?_, ?_, hmark, ?_⟩
  · rw [htr, personalAttemptCount_append,
      personalAttemptCount_eq_zero e.id tail htail, personalSweep_snd,
      personalAttemptCount_flatMap]
    rw [duePersonal_countP_one now s.users s.schedules e hdue hunsent hfk hndU
      he hndS]
  · rcases hfk with ⟨u, hu, huid⟩
    have hrow := e_row_mem_due now s.users s.schedules e u he hdue hunsent hu huid
    rcases List.append_of_mem hrow with ⟨l₁, l₂, hdec⟩
    refine ⟨l₁.flatMap (fun row =>
        [Ev.attemptPersonal row.id row.tg_id (deliver row.tg_id),
         Ev.markPersonalSent row.id]),
      l₂.flatMap (fun row =>
        [Ev.attemptPersonal row.id row.tg_id (deliver row.tg_id),
         Ev.markPersonalSent row.id]) ++ tail,
      u.user_id, deliver u.user_id, ?_⟩
    rw [htr, personalSweep_snd, hdec]
    simp [List.flatMap_append, List.flatMap_cons, List.append_assoc]
  · intro now' pr hpr heqid
    rw [sweep_users_shape] at hpr
    rcases mem_duePersonal_src now' s.users _ pr hpr with ⟨ms, hms, -, hsent, hid⟩
    have := hmark ms hms (by rw [← hid, heqid])
    rw [this] at hsent
    cases hsent

/-- The due unsent entry of the C2 witness store. -/
def wSchedDue : MessageScheduleRow :=
  { id := 9, user_id := 1, message_text := StoredPayload.plain "hello",
    send_time := 10, sent := false }

/-- Witness store for C2: one contact, one due unsent personal entry. -/
def wStoreC2 : Store :=
  { leadSources := [], users := [wUserA], schedules := [wSchedDue],
    broadcasts := [] }

/-- Witness for C2 at a concrete store, with a permanently failing
delivery oracle: the entry is attempted exactly once and its row is
marked sent anyway. -/
theorem personal_entry_swept_witness :
    personalAttemptCount 9
      (send_scheduled_broadcasts (fun _ => DeliveryResult.failed) 50 wStoreC2).2 = 1 ∧
    ({ id := 9, user_id := 1, message_text := StoredPayload.plain "hello",
       send_time := 10, sent := true } : MessageScheduleRow).sent = true := by
  have h := personal_entry_swept (fun _ => DeliveryResult.failed) 50 wStoreC2
    wSchedDue (by decide) (by decide) rfl ⟨wUserA, by decide, rfl⟩
    (by decide) (by decide)
  refine ⟨h.1, ?_⟩
  exact h.2.2.1 _ (by decide) rfl

end NutriKaz
